import Mathlib

/-!
Verification of the realtime_asl repository: a shallow embedding of its
temporal recognition state machine (src/camera.py, src/detection.py), its
settings validation, the zoom transform (src/backend/detector.py), and the
camera capture loop (src/backend/camera_manager.py), together with theorems
settling the specified properties.
-/

set_option maxRecDepth 100000

namespace RealtimeASL

/-- Python list slicing `l[-n:]`: the last `min n l.length` elements. -/
def takeLast (n : Nat) (l : List α) : List α := l.drop (l.length - n)

/-- `np.argmax`: index of the first occurrence of the maximum of the list
(0 on the empty list, which numpy treats as an error; never reached here). -/
def npArgmax (l : List ℚ) : Nat :=
  (List.range l.length).foldl
    (fun best i => if l.getD i 0 > l.getD best 0 then i else best) 0

/-- `np.unique`: the sorted list of distinct values of the input. -/
def npUnique (l : List Nat) : List Nat :=
  (List.insertionSort (fun a b => a ≤ b) l).dedup

/-- Python `int(q)` for the nonnegative rationals arising in the zoom
arithmetic (truncation toward zero, which is floor for `q ≥ 0`). -/
def intOfRat (q : ℚ) : Nat := (⌊q⌋).toNat

/-- The fixed action labels of the classifier
(`actions = np.array(['hello', 'thanks', 'iloveyou'])` in src/camera.py). -/
def actions : List String := ["hello", "thanks", "iloveyou"]

/-- The mutable state of the `Video` stream object (src/camera.py, `start`):
the feature-vector sliding window `sequence`, the raw argmax history
`predictions`, the committed `sentence`, and the two settings. The feature
vector type is a parameter: `get_frame` treats keypoint vectors opaquely,
only appending them and passing the window to the model. -/
structure VideoState (FV : Type) where
  sequence : List FV
  predictions : List Nat
  sentence : List String
  threshold : ℚ
  zoom_factor : ℚ
deriving Repr

/-- Initial state set by `Video.start`: empty window, history and sentence,
threshold 0.8, zoom factor 1.0. -/
def initialVideoState (FV : Type) : VideoState FV :=
  { sequence := [], predictions := [], sentence := [],
    threshold := mkRat 4 5, zoom_factor := 1 }

/-- The three-way commit gate of src/camera.py lines 214-217 (identical in
src/detection.py lines 154-157), evaluated after the current argmax has been
appended to `preds`:
`np.unique(predictions[-10:])[0] == np.argmax(res)` and
`res[np.argmax(res)] > threshold` and
`len(sentence) == 0 or actions[np.argmax(res)] != sentence[-1]`. -/
def commitGate (preds : List Nat) (res : List ℚ) (sentence : List String)
    (threshold : ℚ) : Bool :=
  ((npUnique (takeLast 10 preds)).headD 0 == npArgmax res)
  && decide (res.getD (npArgmax res) 0 > threshold)
  && (sentence.length == 0
      || actions.getD (npArgmax res) "" != sentence.getLastD "")

/-- One prediction cycle of `Video.get_frame` (src/camera.py lines 206-220),
from the point where the keypoints of the current frame have been extracted:
append to `sequence`, truncate it to the last 30, and when the window is full
run the model, append the argmax to `predictions` (never truncated), commit
into `sentence` when the gate passes, and truncate `sentence` to the last 5
when it exceeds 5. The classifier is an external black box, passed in as a
function from the full window to its output distribution. -/
def predictionStep (model : List FV → List ℚ) (s : VideoState FV) (kp : FV) :
    VideoState FV :=
  let seq := takeLast 30 (s.sequence ++ [kp])
  if seq.length == 30 then
    let res := model seq
    let preds := s.predictions ++ [npArgmax res]
    let sent1 :=
      if commitGate preds res s.sentence s.threshold then
        s.sentence ++ [actions.getD (npArgmax res) ""]
      else s.sentence
    let sent2 := if sent1.length > 5 then takeLast 5 sent1 else sent1
    { s with sequence := seq, predictions := preds, sentence := sent2 }
  else
    { s with sequence := seq }

/-- Running the capture pipeline from the freshly started state over a list
of per-frame feature vectors. -/
def videoRun (model : List FV → List ℚ) (fvs : List FV) : VideoState FV :=
  fvs.foldl (predictionStep model) (initialVideoState FV)

example :
    (videoRun (fun _ => [(1 : ℚ), 0, 0]) (List.range 30)).predictions = [0] := by
  decide

example :
    (videoRun (fun _ => [mkRat 9 10, 0, 0]) (List.range 39)).sentence
      = ["hello"] := by
  decide

/-- A concrete black-box classifier used to exercise the commit gate. Its
output distribution depends only on the last feature vector of the window
(here feature vectors are bare naturals, numbering the frames): confidences
stay at 0.5 (below the 0.8 threshold) while the argmax alternates with the
frame parity, and the cycle whose last frame is number 38 reports label 0
with confidence 0.9. -/
def altModel (w : List Nat) : List ℚ :=
  let t := w.getLastD 0
  if t == 38 then [mkRat 9 10, mkRat 1 10, 0]
  else if t % 2 == 0 then [mkRat 1 2, mkRat 2 5, 0]
  else [mkRat 2 5, mkRat 1 2, 0]

example :
    (videoRun altModel (List.range 39)).predictions
      = [1, 0, 1, 0, 1, 0, 1, 0, 1, 0] := by decide

example : (videoRun altModel (List.range 38)).sentence = [] := by decide

example : (videoRun altModel (List.range 39)).sentence = ["hello"] := by decide

/-! Basic facts about `takeLast` and `npUnique`. -/

theorem length_takeLast (n : Nat) (l : List α) :
    (takeLast n l).length = min n l.length := by
  simp only [takeLast, List.length_drop]
  omega

theorem takeLast_of_length_le {l : List α} {n : Nat} (h : l.length ≤ n) :
    takeLast n l = l := by
  unfold takeLast
  rw [Nat.sub_eq_zero_of_le h, List.drop_zero]

theorem takeLast_append_singleton {α} (n : Nat) (hn : 1 ≤ n) (xs : List α)
    (a : α) : takeLast n (xs ++ [a]) = takeLast (n - 1) xs ++ [a] := by
  unfold takeLast
  have h1 : (xs ++ [a]).length - n ≤ xs.length := by simp; omega
  rw [List.drop_append_of_le_length h1]
  have h2 : (xs ++ [a]).length - n = xs.length - (n - 1) := by simp; omega
  rw [h2]

theorem self_mem_takeLast {α} (n : Nat) (hn : 1 ≤ n) (xs : List α) (a : α) :
    a ∈ takeLast n (xs ++ [a]) := by
  rw [takeLast_append_singleton n hn]
  exact List.mem_append_right _ (List.mem_singleton_self a)

theorem mem_npUnique {x : Nat} {l : List Nat} : x ∈ npUnique l ↔ x ∈ l := by
  unfold npUnique
  rw [List.mem_dedup]
  exact (List.perm_insertionSort _ l).mem_iff

theorem sorted_npUnique (l : List Nat) :
    (npUnique l).Sorted (fun a b => a ≤ b) :=
  List.Pairwise.sublist (List.dedup_sublist _) (List.sorted_insertionSort _ l)

theorem headD_mem {l : List Nat} (h : l ≠ []) : l.headD 0 ∈ l := by
  cases l with
  | nil => exact absurd rfl h
  | cons y ys => simp

theorem headD_le_of_sorted {l : List Nat}
    (hs : l.Sorted (fun a b => a ≤ b)) {x : Nat} (hx : x ∈ l) :
    l.headD 0 ≤ x := by
  cases l with
  | nil => cases hx
  | cons y ys =>
    rcases List.mem_cons.mp hx with rfl | hx
    · simp
    · exact List.rel_of_sorted_cons hs x hx

theorem npUnique_headD_eq_iff {l : List Nat} (hl : l ≠ []) (a : Nat) :
    (npUnique l).headD 0 = a ↔ a ∈ l ∧ ∀ x ∈ l, a ≤ x := by
  have hne : npUnique l ≠ [] := by
    cases l with
    | nil => exact absurd rfl hl
    | cons y ys =>
      intro h
      have hy := mem_npUnique.mpr (List.mem_cons_self y ys)
      rw [h] at hy
      cases hy
  constructor
  · intro h
    constructor
    · rw [← h]
      exact mem_npUnique.mp (headD_mem hne)
    · intro x hx
      rw [← h]
      exact headD_le_of_sorted (sorted_npUnique l) (mem_npUnique.mpr hx)
  · rintro ⟨ha, hmin⟩
    have h1 : (npUnique l).headD 0 ∈ l := mem_npUnique.mp (headD_mem hne)
    have h2 : (npUnique l).headD 0 ≤ a :=
      headD_le_of_sorted (sorted_npUnique l) (mem_npUnique.mpr ha)
    exact Nat.le_antisymm h2 (hmin _ h1)

/-- The commit gate, evaluated right after the current argmax has been
appended to the history, passes exactly when the argmax is a lower bound of
(hence the minimum of) the last ten history entries, the winning confidence
exceeds the threshold, and the label passes the de-duplication test. -/
theorem commitGate_eq_true_iff (preds0 : List Nat) (res : List ℚ)
    (sentence : List String) (threshold : ℚ) :
    (commitGate (preds0 ++ [npArgmax res]) res sentence threshold = true ↔
      ((∀ x ∈ takeLast 10 (preds0 ++ [npArgmax res]), npArgmax res ≤ x)
        ∧ res.getD (npArgmax res) 0 > threshold
        ∧ (sentence = []
            ∨ actions.getD (npArgmax res) "" ≠ sentence.getLastD ""))) := by
  have hmem : npArgmax res ∈ takeLast 10 (preds0 ++ [npArgmax res]) :=
    self_mem_takeLast 10 (by omega) _ _
  have hne : takeLast 10 (preds0 ++ [npArgmax res]) ≠ [] :=
    List.ne_nil_of_mem hmem
  unfold commitGate
  simp only [Bool.and_eq_true, Bool.or_eq_true, beq_iff_eq, bne_iff_ne,
    decide_eq_true_eq, List.length_eq_zero, npUnique_headD_eq_iff hne]
  constructor
  · rintro ⟨⟨⟨_, hmin⟩, hconf⟩, hdedup⟩
    exact ⟨hmin, hconf, hdedup⟩
  · rintro ⟨hmin, hconf, hdedup⟩
    exact ⟨⟨⟨hmem, hmin⟩, hconf⟩, hdedup⟩

theorem predictionStep_sequence (model : List FV → List ℚ)
    (s : VideoState FV) (kp : FV) :
    (predictionStep model s kp).sequence = takeLast 30 (s.sequence ++ [kp]) := by
  simp only [predictionStep]
  split <;> rfl

theorem predictionStep_predictions (model : List FV → List ℚ)
    (s : VideoState FV) (kp : FV) :
    (predictionStep model s kp).predictions =
      if (takeLast 30 (s.sequence ++ [kp])).length = 30 then
        s.predictions ++ [npArgmax (model (takeLast 30 (s.sequence ++ [kp])))]
      else s.predictions := by
  simp only [predictionStep]
  split <;> simp_all

theorem predictionStep_sentence_not_full (model : List FV → List ℚ)
    (s : VideoState FV) (kp : FV)
    (h : (takeLast 30 (s.sequence ++ [kp])).length ≠ 30) :
    (predictionStep model s kp).sentence = s.sentence := by
  simp only [predictionStep]
  split <;> simp_all

theorem predictionStep_sentence_full (model : List FV → List ℚ)
    (s : VideoState FV) (kp : FV)
    (h : (takeLast 30 (s.sequence ++ [kp])).length = 30) :
    (predictionStep model s kp).sentence =
      (let res := model (takeLast 30 (s.sequence ++ [kp]))
       let preds := s.predictions ++ [npArgmax res]
       let sent1 :=
         if commitGate preds res s.sentence s.threshold then
           s.sentence ++ [actions.getD (npArgmax res) ""]
         else s.sentence
       if sent1.length > 5 then takeLast 5 sent1 else sent1) := by
  simp only [predictionStep]
  split <;> simp_all

/-- Claim C1, amended: on a prediction cycle with a full window, a label is
committed into the sentence iff the current argmax is a lower bound of
(equivalently, the smallest value among) the last min(10, history length)
entries of the recent-predictions history — unanimity is sufficient but not
necessary — and the winning confidence strictly exceeds the threshold, and
the sentence is empty or the label differs from the last committed one. -/
theorem C1_commit_characterization {FV : Type} (model : List FV → List ℚ)
    (s : VideoState FV) (kp : FV)
    (hfull : (takeLast 30 (s.sequence ++ [kp])).length = 30)
    (hsent : s.sentence.length ≤ 5) :
    (predictionStep model s kp).sentence =
      (let res := model (takeLast 30 (s.sequence ++ [kp]))
       let a := npArgmax res
       if (∀ x ∈ takeLast 10 (s.predictions ++ [a]), a ≤ x)
           ∧ res.getD a 0 > s.threshold
           ∧ (s.sentence = [] ∨ actions.getD a "" ≠ s.sentence.getLastD "")
         then takeLast 5 (s.sentence ++ [actions.getD a ""])
         else s.sentence) := by
  rw [predictionStep_sentence_full model s kp hfull]
  dsimp only
  by_cases hgate : commitGate
      (s.predictions ++ [npArgmax (model (takeLast 30 (s.sequence ++ [kp])))])
      (model (takeLast 30 (s.sequence ++ [kp]))) s.sentence s.threshold = true
  · rw [if_pos hgate, if_pos ((commitGate_eq_true_iff _ _ _ _).mp hgate)]
    by_cases h5 :
        (s.sentence
          ++ [actions.getD
                (npArgmax (model (takeLast 30 (s.sequence ++ [kp])))) ""]).length
          > 5
    · rw [if_pos h5]
    · rw [if_neg h5, takeLast_of_length_le (Nat.le_of_not_lt h5)]
  · rw [if_neg hgate,
      if_neg (fun hc => hgate ((commitGate_eq_true_iff _ _ _ _).mpr hc)),
      if_neg (by omega)]

/-- A classifier with constant output: label 0 with full confidence. -/
def constModel (_ : List Nat) : List ℚ := [1, 0, 0]

/-- Claim C1 as stated is false on the code: running the pipeline on 39
frames whose raw predictions alternate 1,0,1,0,… produces no commit through
frame 38, yet on the cycle at frame 39 — whose last ten raw predictions
alternate between the two labels 1 and 0 — the label of action 0 is
committed, because `np.unique(predictions[-10:])[0]` is the smallest
distinct recent value (0), not a test of unanimity. -/
theorem C1_counterexample :
    (videoRun altModel (List.range 38)).sentence = []
    ∧ (videoRun altModel (List.range 39)).sentence = ["hello"]
    ∧ takeLast 10 (videoRun altModel (List.range 39)).predictions
        = [1, 0, 1, 0, 1, 0, 1, 0, 1, 0] := by
  refine ⟨by decide, by decide, by decide⟩

/-- A reachable state with a window one frame short of full: 29 frames
already appended, nothing predicted or committed yet. -/
def witState : VideoState Nat :=
  { sequence := List.range 29, predictions := [], sentence := [],
    threshold := mkRat 4 5, zoom_factor := 1 }

theorem C1_commit_characterization_witness :
    (takeLast 30 (witState.sequence ++ [29])).length = 30
    ∧ witState.sentence.length ≤ 5
    ∧ (predictionStep constModel witState 29).sentence =
        (let res := constModel (takeLast 30 (witState.sequence ++ [29]))
         let a := npArgmax res
         if (∀ x ∈ takeLast 10 (witState.predictions ++ [a]), a ≤ x)
             ∧ res.getD a 0 > witState.threshold
             ∧ (witState.sentence = []
                 ∨ actions.getD a "" ≠ witState.sentence.getLastD "")
           then takeLast 5 (witState.sentence ++ [actions.getD a ""])
           else witState.sentence) :=
  ⟨by decide, by decide,
    C1_commit_characterization constModel witState 29 (by decide) (by decide)⟩

/-! Length invariants of runs from the initial state. -/

theorem videoRun_append (model : List FV → List ℚ) (fvs : List FV) (kp : FV) :
    videoRun model (fvs ++ [kp])
      = predictionStep model (videoRun model fvs) kp := by
  simp [videoRun, List.foldl_append]

theorem videoRun_sequence_length (model : List FV → List ℚ) (fvs : List FV) :
    (videoRun model fvs).sequence.length = min fvs.length 30 := by
  induction fvs using List.reverseRecOn with
  | nil => rfl
  | append_singleton xs x ih =>
    rw [videoRun_append, predictionStep_sequence, length_takeLast]
    simp only [List.length_append, List.length_singleton, ih]
    omega

theorem videoRun_predictions_length (model : List FV → List ℚ)
    (fvs : List FV) :
    (videoRun model fvs).predictions.length = fvs.length - 29 := by
  induction fvs using List.reverseRecOn with
  | nil => rfl
  | append_singleton xs x ih =>
    rw [videoRun_append, predictionStep_predictions]
    have hlen : (takeLast 30 ((videoRun model xs).sequence ++ [x])).length
        = min (xs.length + 1) 30 := by
      rw [length_takeLast]
      simp only [List.length_append, List.length_singleton,
        videoRun_sequence_length]
      omega
    by_cases h : 30 ≤ xs.length + 1
    · rw [if_pos (by rw [hlen]; omega)]
      simp only [List.length_append, List.length_singleton, ih]
      omega
    · rw [if_neg (by rw [hlen]; omega)]
      simp only [List.length_append, List.length_singleton, ih]
      omega

/-- Claim C2 as stated is false on the code: after 40 appends (11 complete
prediction cycles) the recent-predictions history holds 11 entries, more
than the claimed bound of 10 — the code reads `predictions[-10:]` but never
truncates the list. -/
theorem C2_counterexample :
    10 < (videoRun constModel (List.range 40)).predictions.length := by
  decide

/-- Claim C2, amended: the recent-predictions history is append-only and
never truncated — each prediction cycle with a full window appends exactly
one argmax entry, so after n appends from a fresh start the history holds
n − 29 entries (0 while the window is filling), growing without bound; only
its last min(10, length) entries are read by the stability check. -/
theorem C2_predictions_growth {FV : Type} (model : List FV → List ℚ)
    (fvs : List FV) (s : VideoState FV) (kp : FV) :
    (videoRun model fvs).predictions.length = fvs.length - 29
    ∧ ((predictionStep model s kp).predictions = s.predictions
        ∨ (predictionStep model s kp).predictions
            = s.predictions
              ++ [npArgmax (model (takeLast 30 (s.sequence ++ [kp])))]) := by
  refine ⟨videoRun_predictions_length model fvs, ?_⟩
  rw [predictionStep_predictions]
  split
  · exact Or.inr rfl
  · exact Or.inl rfl

/-- Claim C3: the sliding window always has length min(appends, 30), never
exceeding 30; and once at least 30 vectors have been appended, each further
append drops the oldest entry (the window becomes its tail plus the new
vector) and yields a prediction attempt — one new history entry — never
reverting to filling. -/
theorem C3_window_invariant {FV : Type} (model : List FV → List ℚ)
    (fvs : List FV) (kp : FV) :
    (videoRun model fvs).sequence.length = min fvs.length 30
    ∧ (30 ≤ fvs.length →
        (videoRun model (fvs ++ [kp])).sequence
            = (videoRun model fvs).sequence.tail ++ [kp]
        ∧ (videoRun model (fvs ++ [kp])).predictions.length
            = (videoRun model fvs).predictions.length + 1) := by
  refine ⟨videoRun_sequence_length model fvs, fun h30 => ⟨?_, ?_⟩⟩
  · rw [videoRun_append, predictionStep_sequence]
    have hlen : (videoRun model fvs).sequence.length = 30 := by
      rw [videoRun_sequence_length]
      omega
    rw [takeLast_append_singleton 30 (by omega)]
    congr 1
    unfold takeLast
    rw [hlen]
    norm_num [List.drop_one]
  · rw [videoRun_append, predictionStep_predictions]
    have hlen : (takeLast 30 ((videoRun model fvs).sequence ++ [kp])).length
        = 30 := by
      rw [length_takeLast]
      simp only [List.length_append, List.length_singleton,
        videoRun_sequence_length]
      omega
    rw [if_pos hlen]
    simp

theorem C3_window_invariant_witness :
    30 ≤ (List.range 30).length
    ∧ (videoRun constModel (List.range 30 ++ [30])).sequence
        = (videoRun constModel (List.range 30)).sequence.tail ++ [30]
    ∧ (videoRun constModel (List.range 30 ++ [30])).predictions.length
        = (videoRun constModel (List.range 30)).predictions.length + 1 :=
  ⟨by decide,
    ((C3_window_invariant constModel (List.range 30) 30).2 (by decide)).1,
    ((C3_window_invariant constModel (List.range 30) 30).2 (by decide)).2⟩

/-! Sentence length invariant. -/

theorem trunc5_length_le (l : List String) :
    (if l.length > 5 then takeLast 5 l else l).length ≤ 5 := by
  split
  · rw [length_takeLast]
    omega
  · omega

theorem predictionStep_sentence_le (model : List FV → List ℚ)
    (s : VideoState FV) (kp : FV) (h : s.sentence.length ≤ 5) :
    (predictionStep model s kp).sentence.length ≤ 5 := by
  by_cases hfull : (takeLast 30 (s.sequence ++ [kp])).length = 30
  · rw [predictionStep_sentence_full model s kp hfull]
    dsimp only
    exact trunc5_length_le _
  · rw [predictionStep_sentence_not_full model s kp hfull]
    exact h

theorem videoRun_sentence_le (model : List FV → List ℚ) (fvs : List FV) :
    (videoRun model fvs).sentence.length ≤ 5 := by
  induction fvs using List.reverseRecOn with
  | nil => simp [videoRun, initialVideoState]
  | append_singleton xs x ih =>
    rw [videoRun_append]
    exact predictionStep_sentence_le model _ x ih

/-- Claim C4: after every prediction cycle of a run the sentence holds at
most 5 entries; and on a cycle starting from a sentence of 5 entries, the
sentence either stays as it is or the committed label is appended with the
oldest entry dropped, the order of the surviving 5 being preserved. -/
theorem C4_sentence_bound {FV : Type} (model : List FV → List ℚ)
    (fvs : List FV) (s : VideoState FV) (kp : FV) :
    (videoRun model fvs).sentence.length ≤ 5
    ∧ (s.sentence.length = 5 →
        (predictionStep model s kp).sentence = s.sentence
        ∨ (predictionStep model s kp).sentence
            = s.sentence.drop 1
              ++ [actions.getD
                    (npArgmax (model (takeLast 30 (s.sequence ++ [kp])))) ""]) := by
  refine ⟨videoRun_sentence_le model fvs, fun h5 => ?_⟩
  by_cases hfull : (takeLast 30 (s.sequence ++ [kp])).length = 30
  · rw [predictionStep_sentence_full model s kp hfull]
    dsimp only
    split
    · right
      rw [if_pos (by simp [h5])]
      rw [takeLast_append_singleton 5 (by omega)]
      congr 1
      unfold takeLast
      rw [h5]
    · left
      rw [if_neg (by omega)]
  · left
    exact predictionStep_sentence_not_full model s kp hfull

theorem C4_sentence_bound_witness :
    (5 : Nat) = 5
    ∧ ((predictionStep constModel
          { sequence := List.range 29, predictions := [],
            sentence := ["a", "b", "c", "d", "e"],
            threshold := mkRat 4 5, zoom_factor := 1 } 29).sentence
        = ["a", "b", "c", "d", "e"]
      ∨ (predictionStep constModel
          { sequence := List.range 29, predictions := [],
            sentence := ["a", "b", "c", "d", "e"],
            threshold := mkRat 4 5, zoom_factor := 1 } 29).sentence
        = ["a", "b", "c", "d", "e"].drop 1
          ++ [actions.getD
                (npArgmax (constModel (takeLast 30 (List.range 29 ++ [29]))))
                ""]) :=
  ⟨rfl,
    (C4_sentence_bound constModel []
      { sequence := List.range 29, predictions := [],
        sentence := ["a", "b", "c", "d", "e"],
        threshold := mkRat 4 5, zoom_factor := 1 } 29).2 (by decide)⟩

/-! Settings writes (src/camera.py `set_threshold` lines 148-157 and
`set_zoom` lines 175-184). A raised ValueError is modelled by the error
branch of `Except`; the state is returned only on the success branch, so an
error leaves the caller with the prior state. -/

/-- `Video.set_threshold`: store the new threshold when `0 <= t <= 1`,
otherwise raise ValueError. -/
def set_threshold (s : VideoState FV) (t : ℚ) :
    Except String (VideoState FV) :=
  if 0 ≤ t ∧ t ≤ 1 then .ok { s with threshold := t }
  else .error "Threshold must be between 0 and 1"

/-- `Video.set_zoom`: store the new zoom factor when `z > 0`, otherwise
raise ValueError. -/
def set_zoom (s : VideoState FV) (z : ℚ) : Except String (VideoState FV) :=
  if z > 0 then .ok { s with zoom_factor := z }
  else .error "Zoom factor must be greater than 0"

/-- Claim C5: settings writes are validated and atomic — for every current
state, every threshold outside [0, 1] and every zoom ≤ 0 are rejected with
an error (the stored value untouched, since only the error branch is
returned), while every threshold in [0, 1] — the boundaries 0 and 1
included — and every zoom > 0 (such as 0.5) is accepted and stored, all
other fields unchanged. -/
theorem C5_settings_validation {FV : Type} (s : VideoState FV) (t z : ℚ) :
    (t < 0 ∨ 1 < t →
        set_threshold s t = .error "Threshold must be between 0 and 1")
    ∧ (0 ≤ t → t ≤ 1 → set_threshold s t = .ok { s with threshold := t })
    ∧ (z ≤ 0 → set_zoom s z = .error "Zoom factor must be greater than 0")
    ∧ (0 < z → set_zoom s z = .ok { s with zoom_factor := z }) := by
  refine ⟨fun h => ?_, fun h0 h1 => ?_, fun h => ?_, fun h => ?_⟩
  · rw [set_threshold, if_neg]
    rintro ⟨hc0, hc1⟩
    rcases h with h | h
    · exact absurd hc0 (not_le.mpr h)
    · exact absurd hc1 (not_le.mpr h)
  · rw [set_threshold, if_pos ⟨h0, h1⟩]
  · rw [set_zoom, if_neg (not_lt.mpr h)]
  · rw [set_zoom, if_pos h]

theorem C5_settings_validation_witness :
    ((-(mkRat 1 10) < 0 ∨ 1 < -(mkRat 1 10))
      ∧ set_threshold witState (-(mkRat 1 10))
          = .error "Threshold must be between 0 and 1")
    ∧ ((mkRat 11 10 < 0 ∨ 1 < mkRat 11 10)
      ∧ set_threshold witState (mkRat 11 10)
          = .error "Threshold must be between 0 and 1")
    ∧ ((0 : ℚ) ≤ 0 ∧ (0 : ℚ) ≤ 1
      ∧ set_threshold witState 0 = .ok { witState with threshold := 0 })
    ∧ ((0 : ℚ) ≤ 1 ∧ (1 : ℚ) ≤ 1
      ∧ set_threshold witState 1 = .ok { witState with threshold := 1 })
    ∧ ((0 : ℚ) ≤ 0
      ∧ set_zoom witState 0 = .error "Zoom factor must be greater than 0")
    ∧ ((-2 : ℚ) ≤ 0
      ∧ set_zoom witState (-2) = .error "Zoom factor must be greater than 0")
    ∧ ((0 : ℚ) < mkRat 1 2
      ∧ set_zoom witState (mkRat 1 2)
          = .ok { witState with zoom_factor := mkRat 1 2 }) :=
  ⟨⟨by decide,
      (C5_settings_validation witState (-(mkRat 1 10)) 1).1 (by decide)⟩,
    ⟨by decide,
      (C5_settings_validation witState (mkRat 11 10) 1).1 (by decide)⟩,
    ⟨by decide, by decide,
      (C5_settings_validation witState 0 1).2.1 (by decide) (by decide)⟩,
    ⟨by decide, by decide,
      (C5_settings_validation witState 1 1).2.1 (by decide) (by decide)⟩,
    ⟨by decide,
      (C5_settings_validation witState 0 0).2.2.1 (by decide)⟩,
    ⟨by decide,
      (C5_settings_validation witState 0 (-2)).2.2.1 (by decide)⟩,
    ⟨by decide,
      (C5_settings_validation witState 0 (mkRat 1 2)).2.2.2 (by decide)⟩⟩

/-! The zoom transform (src/backend/detector.py, `ASLDetector.apply_zoom`,
lines 111-145). Frames are rectangular pixel buffers. `cv2.resize` is an
external capability; its documented contract fixes the output dimensions to
the requested size, so it is passed in as a parameter together with that
contract. -/

/-- A frame: height, width, and a pixel function (the three uint8 channels
of a pixel modelled as a list of naturals). -/
structure Frame where
  height : Nat
  width : Nat
  pix : Nat → Nat → List Nat

/-- `ASLDetector.apply_zoom`: identity at zoom 1.0; zooming in crops a
centered region of size (h/z, w/z) and resizes it back to (w, h); zooming
out resizes the frame down to (w·z, h·z) and pastes it centered onto a
zero-valued canvas of the original size. -/
def apply_zoom (resize : Frame → Nat → Nat → Frame) (frame : Frame)
    (zoom_factor : ℚ) : Frame :=
  if zoom_factor == 1 then frame
  else
    let h := frame.height
    let w := frame.width
    if zoom_factor > 1 then
      let new_h := intOfRat ((h : ℚ) / zoom_factor)
      let new_w := intOfRat ((w : ℚ) / zoom_factor)
      let start_y := (h - new_h) / 2
      let start_x := (w - new_w) / 2
      let cropped : Frame :=
        { height := new_h, width := new_w,
          pix := fun y x => frame.pix (start_y + y) (start_x + x) }
      resize cropped w h
    else
      let new_h := intOfRat ((h : ℚ) * zoom_factor)
      let new_w := intOfRat ((w : ℚ) * zoom_factor)
      let resized := resize frame new_w new_h
      let start_y := (h - new_h) / 2
      let start_x := (w - new_w) / 2
      { height := h, width := w,
        pix := fun y x =>
          if start_y ≤ y ∧ y < start_y + new_h
              ∧ start_x ≤ x ∧ x < start_x + new_w then
            resized.pix (y - start_y) (x - start_x)
          else [0, 0, 0] }

theorem apply_zoom_dims (resize : Frame → Nat → Nat → Frame)
    (hres : ∀ f w h, (resize f w h).height = h ∧ (resize f w h).width = w)
    (frame : Frame) (z : ℚ) :
    (apply_zoom resize frame z).height = frame.height
    ∧ (apply_zoom resize frame z).width = frame.width := by
  unfold apply_zoom
  split
  · exact ⟨rfl, rfl⟩
  · dsimp only
    split
    · exact ⟨(hres _ _ _).1, (hres _ _ _).2⟩
    · exact ⟨rfl, rfl⟩

/-- Claim C6: zoom with factor 1.0 returns the input frame itself
(pixel-exact identity); for every resize capability meeting the cv2
contract (output dimensions are the requested ones) and every zoom factor
z > 0 the output keeps the input dimensions; hence applying z and then 1/z
to a frame of even dimensions again yields the original dimensions. -/
theorem C6_zoom_shape (resize : Frame → Nat → Nat → Frame)
    (hres : ∀ f w h, (resize f w h).height = h ∧ (resize f w h).width = w)
    (frame : Frame) (z : ℚ) (hz : 0 < z)
    (heven : frame.height % 2 = 0 ∧ frame.width % 2 = 0) :
    apply_zoom resize frame 1 = frame
    ∧ (apply_zoom resize frame z).height = frame.height
    ∧ (apply_zoom resize frame z).width = frame.width
    ∧ (apply_zoom resize (apply_zoom resize frame z) (1 / z)).height
        = frame.height
    ∧ (apply_zoom resize (apply_zoom resize frame z) (1 / z)).width
        = frame.width := by
  refine ⟨?_, (apply_zoom_dims resize hres frame z).1,
    (apply_zoom_dims resize hres frame z).2, ?_, ?_⟩
  · simp [apply_zoom]
  · rw [(apply_zoom_dims resize hres _ _).1,
      (apply_zoom_dims resize hres frame z).1]
  · rw [(apply_zoom_dims resize hres _ _).2,
      (apply_zoom_dims resize hres frame z).2]

/-- A resize capability meeting the dimensional contract, used to witness
the zoom theorem concretely. -/
def witResize (f : Frame) (w h : Nat) : Frame :=
  { height := h, width := w, pix := f.pix }

/-- A concrete 4 x 6 frame. -/
def witFrame : Frame :=
  { height := 4, width := 6, pix := fun _ _ => [7, 7, 7] }

theorem C6_zoom_shape_witness :
    (0 : ℚ) < 2
    ∧ (witFrame.height % 2 = 0 ∧ witFrame.width % 2 = 0)
    ∧ (apply_zoom witResize witFrame 1 = witFrame
       ∧ (apply_zoom witResize witFrame 2).height = witFrame.height
       ∧ (apply_zoom witResize witFrame 2).width = witFrame.width
       ∧ (apply_zoom witResize (apply_zoom witResize witFrame 2)
            (1 / 2)).height = witFrame.height
       ∧ (apply_zoom witResize (apply_zoom witResize witFrame 2)
            (1 / 2)).width = witFrame.width) :=
  ⟨by decide, ⟨by decide, by decide⟩,
    C6_zoom_shape witResize (fun _ _ _ => ⟨rfl, rfl⟩) witFrame 2
      (by decide) ⟨by decide, by decide⟩⟩

/-! The backend capture pipeline (src/backend/camera_manager.py). The camera
device, the frame processor and the JPEG encoder are external capabilities:
a read that fails yields `none`, and a processor or encoder invocation that
raises yields an `Except.error`. -/

/-- Observable state of a `CameraManager`: the published-frame slot, the
run flag, and whether a capture handle is held (`some b` with `b` recording
whether the device opened). -/
structure CMState (B : Type) where
  latest_frame : Option B
  camera_running : Bool
  video_capture : Option Bool
deriving Repr, DecidableEq

/-- The state after `CameraManager.__init__` (lines 11-18). -/
def initialCMState : CMState B :=
  { latest_frame := none, camera_running := false, video_capture := none }

/-- `CameraManager.start_camera` (lines 24-58): when already running, log a
warning and report success; otherwise open the device (the outcome of the
external open is a parameter), report failure when it did not open, and
otherwise set the run flag and start the capture thread. -/
def start_camera (s : CMState B) (openSucceeds : Bool) : CMState B × Bool :=
  if s.camera_running then (s, true)
  else if !openSucceeds then ({ s with video_capture := some false }, false)
  else ({ s with video_capture := some true, camera_running := true }, true)

/-- `CameraManager.stop_camera` (lines 60-94): when not running, log a
warning and report success; otherwise clear the run flag, join the thread,
release the device and clear the published frame. -/
def stop_camera (s : CMState B) : CMState B × Bool :=
  if !s.camera_running then (s, true)
  else
    ({ s with
        camera_running := false
        video_capture := none
        latest_frame := none }, true)

/-- `CameraManager.get_latest_frame` (lines 96-104). -/
def get_latest_frame (s : CMState B) : Option B := s.latest_frame

/-- The external outcomes of one iteration of the capture loop: the frame
read (`none` on a failed read), the installed frame processor (`none` when
none is set), and the encoder. -/
structure IterIn (F B : Type) where
  readResult : Option F
  frame_processor : Option (F → Except String F)
  encode : F → Except String B

/-- `if self.frame_processor: processed = self.frame_processor(frame) else:
processed = frame` (lines 126-129). -/
def runProcessor (fp : Option (F → Except String F)) (frame : F) :
    Except String F :=
  match fp with
  | some p => p frame
  | none => .ok frame

/-- The body of the while loop of `CameraManager._capture_frames` (lines
117-144): a failed read pauses briefly and retries; otherwise the frame is
processed, encoded and published into the slot under the lock; any error
raised while processing or encoding is logged and the iteration skipped. -/
def captureBody (s : CMState B) (it : IterIn F B) : CMState B :=
  match it.readResult with
  | none => s
  | some frame =>
    match runProcessor it.frame_processor frame with
    | .error _ => s
    | .ok pframe =>
      match it.encode pframe with
      | .error _ => s
      | .ok buffer => { s with latest_frame := some buffer }

/-- The capture loop: iterate the body while the run flag holds. -/
def captureRun (s : CMState B) (its : List (IterIn F B)) : CMState B :=
  its.foldl (fun t it => if t.camera_running then captureBody t it else t) s

/-- One YOLO detection: letter, confidence and bounding box
(src/backend/detector.py lines 50-54). -/
structure Detection where
  letter : String
  confidence : ℚ
  bbox : List Int

/-- `ASLDetector.detect_letters` (src/backend/detector.py lines 16-60): run
the external YOLO inference; any error raised is logged and an empty
detection list returned. -/
def detect_letters (infer : Frame → ℚ → Except String (List Detection))
    (frame : Frame) (confidence_threshold : ℚ) : List Detection :=
  match infer frame confidence_threshold with
  | .ok dets => dets
  | .error _ => []

/-- `ASLDetector.process_frame` (src/backend/detector.py lines 168-200):
apply zoom, detect, draw the detections, add the overlay; any error raised
inside the body is caught and the original frame with an empty detection
list is returned. Drawing and overlay call external cv2 primitives and are
passed in as fallible capabilities. -/
def process_frame (resize : Frame → Nat → Nat → Frame)
    (infer : Frame → ℚ → Except String (List Detection))
    (draw : Frame → List Detection → Except String Frame)
    (overlay : Frame → List Detection → ℚ → Except String Frame)
    (frame : Frame) (confidence_threshold zoom_factor : ℚ) :
    Frame × List Detection :=
  let zoomed := apply_zoom resize frame zoom_factor
  let dets := detect_letters infer zoomed confidence_threshold
  match draw zoomed dets with
  | .error _ => (frame, [])
  | .ok annotated =>
    match overlay annotated dets confidence_threshold with
    | .error _ => (frame, [])
    | .ok final => (final, dets)

/-- Claim C7: processing failures are contained per cycle — when the frame
processor raises on an iteration, the capture body returns normally (no
exception propagates: it is a total function), the state including the
published slot is unchanged, and the loop continues with the remaining
iterations; a YOLO inference error yields an empty detection list; an error
raised while drawing inside `process_frame` is caught and the original
frame with no detections is returned. -/
theorem C7_processing_errors_contained {F B : Type} (s : CMState B)
    (it : IterIn F B) (frame : F) (p : F → Except String F) (e : String)
    (its : List (IterIn F B)) (resize : Frame → Nat → Nat → Frame)
    (infer : Frame → ℚ → Except String (List Detection))
    (draw : Frame → List Detection → Except String Frame)
    (overlay : Frame → List Detection → ℚ → Except String Frame)
    (f : Frame) (c z : ℚ) (d : String) :
    (it.readResult = some frame → it.frame_processor = some p →
      p frame = .error e →
      captureBody s it = s ∧ captureRun s (it :: its) = captureRun s its)
    ∧ (infer f c = .error d → detect_letters infer f c = [])
    ∧ (draw (apply_zoom resize f z)
          (detect_letters infer (apply_zoom resize f z) c) = .error d →
        process_frame resize infer draw overlay f c z = (f, [])) := by
  refine ⟨fun hr hp he => ?_, fun hinf => ?_, fun hdraw => ?_⟩
  · have hbody : captureBody s it = s := by
      simp [captureBody, hr, runProcessor, hp, he]
    refine ⟨hbody, ?_⟩
    by_cases hrun : s.camera_running
    · simp [captureRun, List.foldl_cons, hrun, hbody]
    · simp [captureRun, List.foldl_cons, hrun]
  · simp [detect_letters, hinf]
  · simp [process_frame, hdraw]

/-- A failing capture iteration: the read succeeds, the processor raises. -/
def witIterBad : IterIn Nat Nat :=
  { readResult := some 3
    frame_processor := some (fun _ => .error "boom")
    encode := fun n => .ok n }

/-- A running camera-manager state with one published frame. -/
def witCM : CMState Nat :=
  { latest_frame := some 9, camera_running := true,
    video_capture := some true }

theorem C7_processing_errors_contained_witness :
    (witIterBad.readResult = some 3
      ∧ witIterBad.frame_processor = some (fun _ => .error "boom")
      ∧ (fun (_ : Nat) => (.error "boom" : Except String Nat)) 3
          = .error "boom")
    ∧ captureBody witCM witIterBad = witCM
    ∧ captureRun witCM [witIterBad]
        = captureRun witCM ([] : List (IterIn Nat Nat)) :=
  ⟨⟨rfl, rfl, rfl⟩,
    ((C7_processing_errors_contained witCM witIterBad 3
        (fun _ => .error "boom") "boom" [] witResize
        (fun _ _ => .ok []) (fun f _ => .ok f) (fun f _ _ => .ok f)
        witFrame 0 1 "d").1 rfl rfl rfl).1,
    ((C7_processing_errors_contained witCM witIterBad 3
        (fun _ => .error "boom") "boom" [] witResize
        (fun _ _ => .ok []) (fun f _ => .ok f) (fun f _ _ => .ok f)
        witFrame 0 1 "d").1 rfl rfl rfl).2⟩

/-- Claim C8: lifecycle operations are idempotent no-ops in the desired
state — starting while running and stopping while stopped both report
success and leave the state untouched. -/
theorem C8_lifecycle_idempotent {B : Type} (s t : CMState B) (o : Bool) :
    (s.camera_running = true → start_camera s o = (s, true))
    ∧ (t.camera_running = false → stop_camera t = (t, true)) := by
  constructor
  · intro h
    simp [start_camera, h]
  · intro h
    simp [stop_camera, h]

theorem C8_lifecycle_idempotent_witness :
    witCM.camera_running = true
    ∧ start_camera witCM false = (witCM, true)
    ∧ (initialCMState : CMState Nat).camera_running = false
    ∧ stop_camera (initialCMState : CMState Nat) = (initialCMState, true) :=
  ⟨rfl, (C8_lifecycle_idempotent witCM initialCMState false).1 rfl,
    rfl, (C8_lifecycle_idempotent witCM initialCMState false).2 rfl⟩

theorem captureBody_latest {F B : Type} (s : CMState B) (it : IterIn F B) :
    (captureBody s it).latest_frame = s.latest_frame
    ∨ ∃ b, (captureBody s it).latest_frame = some b := by
  rcases hr : it.readResult with _ | frame
  · exact Or.inl (by simp [captureBody, hr])
  · rcases hp : runProcessor it.frame_processor frame with e | pframe
    · exact Or.inl (by simp [captureBody, hr, hp])
    · rcases he : it.encode pframe with e | buffer
      · exact Or.inl (by simp [captureBody, hr, hp, he])
      · exact Or.inr ⟨buffer, by simp [captureBody, hr, hp, he]⟩

theorem captureRun_latest {F B : Type} (its : List (IterIn F B))
    (s : CMState B) :
    (captureRun s its).latest_frame = s.latest_frame
    ∨ ∃ b, (captureRun s its).latest_frame = some b := by
  induction its generalizing s with
  | nil => exact Or.inl rfl
  | cons it rest ih =>
    have hstep : captureRun s (it :: rest)
        = captureRun (if s.camera_running then captureBody s it else s)
            rest := by
      simp [captureRun, List.foldl_cons]
    rw [hstep]
    rcases ih (if s.camera_running then captureBody s it else s) with h | h
    · rw [h]
      by_cases hc : s.camera_running
      · simp only [hc, if_true]
        exact captureBody_latest s it
      · simp only [hc, if_false]
        exact Or.inl rfl
    · exact Or.inr h

/-- Claim C10: the published-frame slot changes only on a successful publish
or on stop — a failed read, a processor error or an encoder error leaves the
whole state (and hence the slot read by `get_latest_frame`) unchanged; any
change of the slot comes from a fully successful iteration and installs the
encoded bytes; the slot starts out absent, the loop never clears a published
slot (so get returns absent only before the first successful publish), and
stop clears it. -/
theorem C10_publish_slot {F B : Type} (s : CMState B) (it : IterIn F B) :
    (initialCMState : CMState B).latest_frame = none
    ∧ get_latest_frame s = s.latest_frame
    ∧ (it.readResult = none → captureBody s it = s)
    ∧ (∀ frame e, it.readResult = some frame →
        runProcessor it.frame_processor frame = .error e →
        captureBody s it = s)
    ∧ (∀ frame pframe e, it.readResult = some frame →
        runProcessor it.frame_processor frame = .ok pframe →
        it.encode pframe = .error e → captureBody s it = s)
    ∧ ((captureBody s it).latest_frame ≠ s.latest_frame →
        ∃ frame pframe buffer, it.readResult = some frame
          ∧ runProcessor it.frame_processor frame = .ok pframe
          ∧ it.encode pframe = .ok buffer
          ∧ (captureBody s it).latest_frame = some buffer)
    ∧ (s.camera_running = true → (stop_camera s).1.latest_frame = none)
    ∧ (∀ its : List (IterIn F B),
        (captureRun s its).latest_frame = s.latest_frame
        ∨ ∃ b, (captureRun s its).latest_frame = some b) := by
  refine ⟨rfl, rfl, fun hr => ?_, fun frame e hr he => ?_,
    fun frame pframe e hr hok he => ?_, fun hne => ?_, fun hrun => ?_,
    fun its => captureRun_latest its s⟩
  · simp [captureBody, hr]
  · simp [captureBody, hr, he]
  · simp [captureBody, hr, hok, he]
  · rcases hr : it.readResult with _ | frame
    · exact absurd (by simp [captureBody, hr]) hne
    · rcases hp : runProcessor it.frame_processor frame with e | pframe
      · exact absurd (by simp [captureBody, hr, hp]) hne
      · rcases he : it.encode pframe with e | buffer
        · exact absurd (by simp [captureBody, hr, hp, he]) hne
        · exact ⟨frame, pframe, buffer, rfl, hp, he,
            by simp [captureBody, hr, hp, he]⟩
  · simp [stop_camera, hrun]

/-- An iteration whose read fails. -/
def witIterNoRead : IterIn Nat Nat :=
  { readResult := none, frame_processor := none, encode := fun n => .ok n }

theorem C10_publish_slot_witness :
    (initialCMState : CMState Nat).latest_frame = none
    ∧ get_latest_frame witCM = witCM.latest_frame
    ∧ (witIterNoRead.readResult = none
        ∧ captureBody witCM witIterNoRead = witCM)
    ∧ (witCM.camera_running = true
        ∧ (stop_camera witCM).1.latest_frame = none) :=
  ⟨(C10_publish_slot witCM witIterNoRead).1,
    (C10_publish_slot witCM witIterNoRead).2.1,
    ⟨rfl, (C10_publish_slot witCM witIterNoRead).2.2.1 rfl⟩,
    ⟨rfl, (C10_publish_slot witCM witIterNoRead).2.2.2.2.2.2.1 rfl⟩⟩

/-! `Video.release` (src/camera.py lines 143-146) against the cv2 device
contract. -/

/-- The methods defined on a `cv2.VideoCapture` object (the cv2 API:
`destroyAllWindows` is a function of the cv2 module itself, not a method of
`VideoCapture`). -/
def videoCaptureMethods : List String :=
  ["open", "isOpened", "release", "grab", "retrieve", "read", "get", "set",
   "getBackendName", "setExceptionMode", "getExceptionMode"]

/-- A capture handle: whether the device is currently held open. -/
structure CapHandle where
  opened : Bool
deriving Repr, DecidableEq

/-- `cap.release()`: releases the device; releasing an already released
handle is a no-op, so the device-level release is idempotent. -/
def capRelease (c : CapHandle) : CapHandle := { c with opened := false }

/-- `Video.release`: print, `self.cap.release()`, then
`self.cap.destroyAllWindows()` — the last statement looks the attribute
`destroyAllWindows` up on the VideoCapture object, and an attribute not
defined on the object raises AttributeError. -/
def Video.release (c : CapHandle) : Except String CapHandle :=
  let c1 := capRelease c
  if videoCaptureMethods.contains "destroyAllWindows" then .ok c1
  else .error
    "AttributeError: VideoCapture object has no attribute destroyAllWindows"

/-- Claim C9 describes the intended close contract, but the code breaks it:
every call to `Video.release` — on an open handle and on an already
released one alike — raises AttributeError after releasing the device,
because `destroyAllWindows` is not a method of `cv2.VideoCapture`. -/
theorem C9_release_always_raises :
    Video.release { opened := true }
        = .error
          "AttributeError: VideoCapture object has no attribute destroyAllWindows"
    ∧ Video.release { opened := false }
        = .error
          "AttributeError: VideoCapture object has no attribute destroyAllWindows" := by
  refine ⟨rfl, rfl⟩

end RealtimeASL
